import Mathlib

/-!
Shallow embedding of the Cosmos Hub governance vote notification bot
(src/netlify/functions/gov-vote-notify/gov-vote-notify.py) and proofs of
the specified properties of its core: the bech32 address codec, the
paginated fetchers, the validator directory builder, the vote diff
engine, the notification composer and the run orchestrator.
-/

namespace GovBot

/-! ## Association lists

Python `dict` objects (insertion ordered, first-class lookup, in-place
overwrite keeping the key position) are embedded as ordered association
lists over `String` keys. -/

/-- Lookup of a key in an association list: the value of the first pair
whose key matches, mirroring Python `d[k]` / `k in d`. -/
def alookup {β : Type} : List (String × β) → String → Option β
  | [], _ => none
  | kv :: rest, k => if kv.1 = k then some kv.2 else alookup rest k

/-- Python `d[k] = v`: replace the value in place when the key is
present (keeping its position, as CPython dicts do), else append the new
pair at the end. -/
def dictInsert {β : Type} : List (String × β) → String → β → List (String × β)
  | [], k, v => [(k, v)]
  | kv :: rest, k, v => if kv.1 = k then (k, v) :: rest else kv :: dictInsert rest k v

theorem alookup_append_some {β : Type} {l1 : List (String × β)} (l2 : List (String × β))
    {k : String} {v : β} (h : alookup l1 k = some v) : alookup (l1 ++ l2) k = some v := by
  induction l1 with
  | nil => simp [alookup] at h
  | cons kv rest ih =>
    by_cases hk : kv.1 = k
    · simp [alookup, hk] at h ⊢; exact h
    · simp [alookup, hk] at h ⊢; exact ih h

theorem alookup_append_none {β : Type} {l1 : List (String × β)} (l2 : List (String × β))
    {k : String} (h : alookup l1 k = none) : alookup (l1 ++ l2) k = alookup l2 k := by
  induction l1 with
  | nil => simp
  | cons kv rest ih =>
    by_cases hk : kv.1 = k
    · simp [alookup, hk] at h
    · simp [alookup, hk] at h ⊢; exact ih h

theorem alookup_eq_none_of_not_mem {β : Type} {l : List (String × β)} {k : String}
    (h : k ∉ l.map Prod.fst) : alookup l k = none := by
  induction l with
  | nil => rfl
  | cons kv rest ih =>
    rw [List.map_cons, List.mem_cons, not_or] at h
    have hk : kv.1 ≠ k := fun hh => h.1 hh.symm
    simp [alookup, hk, ih h.2]

theorem alookup_singleton_self {β : Type} (k : String) (v : β) :
    alookup [(k, v)] k = some v := by simp [alookup]

theorem alookup_singleton_ne {β : Type} {k k1 : String} (v : β) (h : k1 ≠ k) :
    alookup [(k1, v)] k = none := by simp [alookup, h]

theorem dictInsert_of_none {β : Type} {l : List (String × β)} {k : String}
    (v : β) (h : alookup l k = none) : dictInsert l k v = l ++ [(k, v)] := by
  induction l with
  | nil => rfl
  | cons kv rest ih =>
    by_cases hk : kv.1 = k
    · simp [alookup, hk] at h
    · simp [alookup, hk] at h
      simp [dictInsert, hk, ih h]

theorem alookup_dictInsert_self {β : Type} (l : List (String × β)) (k : String) (v : β) :
    alookup (dictInsert l k v) k = some v := by
  induction l with
  | nil => simp [dictInsert, alookup]
  | cons kv rest ih =>
    by_cases hk : kv.1 = k
    · simp [dictInsert, hk, alookup]
    · simp [dictInsert, hk, alookup, ih]

/-! ## Bech32 codec

Embedding of the reference `bech32` Python library used by the bot
(`bech32.bech32_decode` / `bech32.bech32_encode`). -/

/-- The bech32 data character set. -/
def CHARSET : List Char := "qpzry9x8gf2tvdw0s3jn54khce6mua7l".toList

/-- The generator constants of the bech32 checksum. -/
def GENERATOR : List Nat := [0x3b6a57b2, 0x26508e6d, 0x1ea119fa, 0x3d4233dd, 0x2a1462b3]

/-- Internal function that computes the bech32 checksum. -/
def bech32_polymod (values : List Nat) : Nat :=
  values.foldl
    (fun chk value =>
      let top := chk >>> 25
      let chk1 := ((chk &&& 0x1ffffff) <<< 5) ^^^ value
      (List.range 5).foldl
        (fun c i => if (top >>> i) &&& 1 = 1 then c ^^^ GENERATOR.getD i 0 else c) chk1)
    1

/-- Expand the HRP into values for checksum computation. -/
def bech32_hrp_expand (hrp : String) : List Nat :=
  hrp.toList.map (fun c => c.toNat >>> 5) ++ [0] ++ hrp.toList.map (fun c => c.toNat &&& 31)

/-- Verify a checksum given HRP and converted data characters. -/
def bech32_verify_checksum (hrp : String) (data : List Nat) : Bool :=
  bech32_polymod (bech32_hrp_expand hrp ++ data) = 1

/-- Compute the checksum values given HRP and data. -/
def bech32_create_checksum (hrp : String) (data : List Nat) : List Nat :=
  let values := bech32_hrp_expand hrp ++ data
  let polymod := bech32_polymod (values ++ [0, 0, 0, 0, 0, 0]) ^^^ 1
  (List.range 6).map (fun i => (polymod >>> (5 * (5 - i))) &&& 31)

/-- Compute a bech32 string given HRP and data values (`bech32.bech32_encode`).
Data values are 5-bit values (all call sites pass values decoded from the
character set); indexing into the character set is total via a default. -/
def bech32_encode (hrp : String) (data : List Nat) : String :=
  let combined := data ++ bech32_create_checksum hrp data
  hrp ++ "1" ++ String.mk (combined.map (fun d => CHARSET.getD d (Char.ofNat 63)))

/-- ASCII lowercasing of a string, as Python `str.lower` behaves on the
ASCII range that `bech32_decode` has already validated. -/
def lowerStr (s : String) : String := String.mk (s.toList.map Char.toLower)

/-- ASCII uppercasing of a string, as Python `str.upper` on the validated range. -/
def upperStr (s : String) : String := String.mk (s.toList.map Char.toUpper)

/-- Index of the last occurrence of a character, mirroring Python `str.rfind`
(`none` standing for the `-1` result). -/
def rfindChar (l : List Char) (c : Char) : Option Nat :=
  (l.enum.filterMap (fun p => if p.2 = c then some p.1 else none)).getLast?

/-- Index of a character in the character set, mirroring `CHARSET.find`; the
call site checks membership first, so the absent case is unreachable. -/
def idxOf : List Char → Char → Nat
  | [], _ => 0
  | x :: xs, c => if x = c then 0 else idxOf xs c + 1

/-- Validate a bech32 string, and determine HRP and data
(`bech32.bech32_decode`; the Python `(None, None)` result is `none`). -/
def bech32_decode (bech : String) : Option (String × List Nat) :=
  let cs := bech.toList
  if cs.any (fun c => c.toNat < 33 || 126 < c.toNat) then none
  else if lowerStr bech ≠ bech ∧ upperStr bech ≠ bech then none
  else
    let bl := (lowerStr bech).toList
    match rfindChar bl (Char.ofNat 49) with
    | none => none
    | some pos =>
      if pos < 1 || bl.length < pos + 7 || 90 < bl.length then none
      else if (bl.drop (pos + 1)).any (fun c => !(CHARSET.contains c)) then none
      else
        let hrp := String.mk (bl.take pos)
        let data := (bl.drop (pos + 1)).map (idxOf CHARSET)
        if bech32_verify_checksum hrp data then some (hrp, data.take (data.length - 6))
        else none

/-! ## Address Codec -/

/-- Convert a `cosmosvaloper1...` operator address to the corresponding
`cosmos1...` account address (`operator_to_account` in the source). The
Python `try`/`except` is dead protection: the library signals failure by
returning `(None, None)`, embedded as the `none` branch. -/
def operator_to_account (operator_address : String) : Option String :=
  match bech32_decode operator_address with
  | some (hrp, data) =>
    if hrp = "cosmosvaloper" then some (bech32_encode "cosmos" data) else none
  | none => none

/-! ## Data model -/

/-- One option entry of a fetched vote (`{"option": ...}`). -/
structure VoteOption where
  option : String
deriving DecidableEq, Repr

/-- A fetched vote (`{"voter": ..., "options": [...]}`). A missing
`options` field and an empty list are both falsy in the source and are
embedded as the empty list. -/
structure Vote where
  voter : String
  options : List VoteOption
deriving DecidableEq, Repr

/-- The record stored per seen voter (`{"option": ..., "timestamp": ...}`). -/
structure SeenRecord where
  option : String
  timestamp : String
deriving DecidableEq, Repr

/-- The per-proposal seen mapping, a JSON object keyed by voter address. -/
abbrev SeenMap := List (String × SeenRecord)

/-- The key-value store: keys to deserialized seen mappings. The JSON
serialization boundary is the identity in this embedding. -/
abbrev StoreMap := List (String × SeenMap)

/-- `store.get`: `none` models an absent key. -/
def storeGet (store : StoreMap) (key : String) : Option SeenMap := alookup store key

/-- `store.set`. -/
def storeSet (store : StoreMap) (key : String) (value : SeenMap) : StoreMap :=
  dictInsert store key value

/-- A validator object parsed from one page of the staking endpoint
(`operator_address`, `tokens` parsed by `int(...)`, `description.moniker`). -/
structure ValidatorRaw where
  operator_address : String
  tokens : Int
  moniker : String
deriving DecidableEq, Repr

/-- The per-validator info dict built by `fetch_validators`. The
`voting_power_pct` field is written in a second pass over the finished
dict; during page accumulation it holds `0`. -/
structure ValidatorInfo where
  moniker : String
  tokens : Int
  operator_address : String
  voting_power_pct : Rat
deriving DecidableEq, Repr

/-! ## Paginated Fetcher

One HTTP response of a paginated endpoint is a page carrying an optional
items list (a missing field maps to the empty list via `data.get`) and
an optional `pagination.next_key` (`none` for absent or JSON null). The
fetch loops consume the server's page sequence in order. -/

/-- Python truthiness of an optional string: `None` and `""` are falsy. -/
def truthy : Option String → Bool
  | none => false
  | some s => !(s == "")

/-- One response of the votes endpoint. -/
structure VotesPage where
  votes : Option (List Vote)
  next_key : Option String
deriving DecidableEq, Repr

/-- One issued request: the `pagination.limit` parameter and the optional
`pagination.key` parameter. -/
structure Request where
  limit : String
  key : Option String
deriving DecidableEq, Repr

/-- The loop body of `fetch_all_votes`: issue a request (carrying the
current token when truthy), append `data.get("votes", [])`, read
`pagination.next_key`, stop when it is falsy. Returns the issued
requests alongside the accumulated votes. -/
def fetch_votes_loop : Option String → List VotesPage → List Request × List Vote
  | _, [] => ([], [])
  | tok, page :: rest =>
    let req : Request := { limit := "100", key := if truthy tok then tok else none }
    let items := page.votes.getD []
    if truthy page.next_key then
      let r := fetch_votes_loop page.next_key rest
      (req :: r.1, items ++ r.2)
    else ([req], items)

/-- `fetch_all_votes`: run the pagination loop starting with no token. -/
def fetch_all_votes (pages : List VotesPage) : List Request × List Vote :=
  fetch_votes_loop none pages

/-- One response of the bonded-validators endpoint. -/
structure ValidatorsPage where
  validators : Option (List ValidatorRaw)
  next_key : Option String
deriving DecidableEq, Repr

/-- The info dict stored for one fetched validator before the voting
power pass (`moniker`, `tokens`, `operator_address`). -/
def rawInfo (v : ValidatorRaw) : ValidatorInfo :=
  { moniker := v.moniker, tokens := v.tokens, operator_address := v.operator_address,
    voting_power_pct := 0 }

/-- The per-validator step of the `fetch_validators` page loop: add the
parsed tokens to the running total and store the info dict under the
operator address. -/
def validatorStep (st : List (String × ValidatorInfo) × Int) (v : ValidatorRaw) :
    List (String × ValidatorInfo) × Int :=
  (dictInsert st.1 v.operator_address (rawInfo v), st.2 + v.tokens)

/-- The pagination loop of `fetch_validators`, threading the validators
dict and the running `total_power`. -/
def fetch_validators_loop :
    Option String → List (String × ValidatorInfo) × Int → List ValidatorsPage →
      List (String × ValidatorInfo) × Int
  | _, st, [] => st
  | _, st, page :: rest =>
    let st1 := (page.validators.getD []).foldl validatorStep st
    if truthy page.next_key then fetch_validators_loop page.next_key st1 rest else st1

/-- `fetch_validators`: accumulate all pages, then compute each
validator's `voting_power_pct` as `tokens / total_power * 100`, or `0`
when the total is not positive. -/
def fetch_validators (pages : List ValidatorsPage) : List (String × ValidatorInfo) :=
  let st := fetch_validators_loop none ([], 0) pages
  st.1.map (fun kv =>
    (kv.1,
     { kv.2 with
        voting_power_pct :=
          if 0 < st.2 then (kv.2.tokens : Rat) / (st.2 : Rat) * 100 else 0 }))

/-- All validator objects carried by a page sequence, in order. -/
def allRaws (pages : List ValidatorsPage) : List ValidatorRaw :=
  (pages.map (fun p => p.validators.getD [])).flatten

/-! ## Validator Directory Builder -/

/-- `build_account_to_validator_mapping`: key each validator info by the
account address derived from its operator address; validators whose
operator address fails to convert are skipped. -/
def build_account_to_validator_mapping
    (validators : List (String × ValidatorInfo)) : List (String × ValidatorInfo) :=
  validators.foldl
    (fun m kv =>
      match operator_to_account kv.1 with
      | some account_address => dictInsert m account_address kv.2
      | none => m)
    []

/-! ## Notification Composer -/

/-- `format_vote_option`: the fixed enum-to-label table with passthrough
of unrecognized values (`mapping.get(option, option)`). -/
def format_vote_option (option : String) : String :=
  if option = "VOTE_OPTION_YES" then "Yes"
  else if option = "VOTE_OPTION_NO" then "No"
  else if option = "VOTE_OPTION_ABSTAIN" then "Abstain"
  else if option = "VOTE_OPTION_NO_WITH_VETO" then "NoWithVeto"
  else option

/-- Model of the `vp:.1f` float formatting of the voting power for
display: round the exact rational to one decimal. The binary
floating-point representation is not modeled; no verified claim
depends on this rendering. -/
def formatPct (q : Rat) : String :=
  let n : Int := round (q * 10)
  (if n < 0 then "-" else "") ++ toString (n.natAbs / 10) ++ "." ++ toString (n.natAbs % 10)

/-- The message built by `notify_vote` before posting: moniker and
voting power when the voter is in the validator directory, otherwise the
voter address truncated to its first 12 and last 6 characters joined by
an ellipsis when longer than 20 characters. The timestamp parameter
stands for `datetime.now(timezone.utc).strftime(...)`. -/
def compose_message (vote : Vote) (proposal_id : String)
    (validator_by_account : List (String × ValidatorInfo)) (timestamp : String) : String :=
  let voter := vote.voter
  let option :=
    match vote.options with
    | [] => "Unknown"
    | o :: _ => format_vote_option o.option
  match alookup validator_by_account voter with
  | some info =>
    info.moniker ++ " (" ++ formatPct info.voting_power_pct ++ "% VP) votes " ++ option ++
      " on proposal " ++ proposal_id ++ " at " ++ timestamp
  | none =>
    let short :=
      if 20 < voter.length then voter.take 12 ++ "..." ++ voter.takeRight 6 else voter
    short ++ " votes " ++ option ++ " on proposal " ++ proposal_id ++ " at " ++ timestamp

/-! ## Vote Diff Engine -/

/-- The stored key of a proposal's seen mapping (`f"seen_votes_{proposal_id}"`). -/
def seenKey (proposal_id : String) : String := "seen_votes_" ++ proposal_id

/-- The record written for a newly seen voter: its first-listed option
(`"UNKNOWN"` when the vote carries no options, mirroring the falsy check
on `vote.get("options")`) and the current timestamp. -/
def seenRecordOf (now : String) (v : Vote) : SeenRecord :=
  { option :=
      match v.options with
      | [] => "UNKNOWN"
      | o :: _ => o.option,
    timestamp := now }

/-- One iteration of the diff loop of `process_proposal`: a voter not in
the seen mapping is appended to the new votes and recorded; a seen voter
changes nothing. -/
def voteStep (now : String) (acc : List Vote × SeenMap) (v : Vote) : List Vote × SeenMap :=
  if (alookup acc.2 v.voter).isSome then acc
  else (acc.1 ++ [v], dictInsert acc.2 v.voter (seenRecordOf now v))

/-- The diff loop of `process_proposal` over the fetched votes in fetch
order, returning the new votes and the updated seen mapping. -/
def vote_diff (now : String) (votes : List Vote) (seen : SeenMap) : List Vote × SeenMap :=
  votes.foldl (voteStep now) ([], seen)

/-! ## Run Orchestrator: effects and outcomes

The orchestration level (`handler`, `process_proposal`, `notify_vote`,
`post_error_to_slack`) is embedded with an explicit trace of external
effects and `Except`-valued outcomes supplied by a `World`: each network
call either succeeds with its parsed result or raises with an exception
message. The internals of the two fetch calls are modeled separately by
`fetch_all_votes` and `fetch_validators` above; at this level a fetch is
one external call with an outcome. -/

/-- An observable external effect of a run. -/
inductive Effect where
  | fetchVotes (proposal_id : String)
  | fetchValidators
  | storeGet (key : String)
  | storeSet (key : String) (value : SeenMap)
  | postSlack (message : String)
  | postError (message : String)
deriving DecidableEq, Repr

/-- The environment a run interacts with: outcomes of the vote fetch per
proposal, of the validator fetch, of each notification post and of each
error post, plus the initial store contents. -/
structure World where
  votes : String → Except String (List Vote)
  validators : Except String (List (String × ValidatorInfo))
  store : StoreMap
  post : String → Except String Unit
  errorPost : String → Except String Unit

/-- The notification loop of `process_proposal`: one `notify_vote` call
per new vote in order; the HTTP post happens, then a non-success status
raises, aborting the rest of the loop. -/
def notifyLoop (w : World) (proposal_id now : String)
    (validator_by_account : List (String × ValidatorInfo)) :
    List Vote → List Effect × Except String Unit
  | [] => ([], Except.ok ())
  | v :: vs =>
    let msg := compose_message v proposal_id validator_by_account now
    match w.post msg with
    | Except.error e => ([Effect.postSlack msg], Except.error e)
    | Except.ok _ =>
      let r := notifyLoop w proposal_id now validator_by_account vs
      (Effect.postSlack msg :: r.1, r.2)

/-- `process_proposal`: fetch the votes, fetch the validators, build the
account directory, load the seen mapping (absent key means empty), diff,
notify each new vote, then persist the updated mapping and return the
new-vote count. Any raising step aborts the function with the effects
performed so far. `nowIso` stands for the ISO timestamps written into
seen records, `nowDisplay` for the minute-precision display timestamp. -/
def process_proposal (w : World) (nowIso nowDisplay : String) (store : StoreMap)
    (proposal_id : String) : List Effect × Except String (StoreMap × Nat) :=
  match w.votes proposal_id with
  | Except.error e => ([Effect.fetchVotes proposal_id], Except.error e)
  | Except.ok votes =>
    match w.validators with
    | Except.error e => ([Effect.fetchVotes proposal_id, Effect.fetchValidators], Except.error e)
    | Except.ok validators =>
      let validator_by_account := build_account_to_validator_mapping validators
      let key := seenKey proposal_id
      let seen0 := (storeGet store key).getD []
      let d := vote_diff nowIso votes seen0
      let n := notifyLoop w proposal_id nowDisplay validator_by_account d.1
      match n.2 with
      | Except.error e =>
        ([Effect.fetchVotes proposal_id, Effect.fetchValidators, Effect.storeGet key] ++ n.1,
         Except.error e)
      | Except.ok _ =>
        ([Effect.fetchVotes proposal_id, Effect.fetchValidators, Effect.storeGet key] ++ n.1 ++
           [Effect.storeSet key d.2],
         Except.ok (storeSet store key d.2, d.1.length))

/-- The text `post_error_to_slack` posts for a caught exception. -/
def errorText (e : String) : String := ":warning: Gov notification bot error: " ++ e

/-- `post_error_to_slack`: the post to the error webhook happens and its
own failure is swallowed (`try`/`except: pass`), so both outcomes leave
the same single effect. -/
def post_error_to_slack (w : World) (error_message : String) : List Effect :=
  match w.errorPost (errorText error_message) with
  | Except.ok _ => [Effect.postError (errorText error_message)]
  | Except.error _ => [Effect.postError (errorText error_message)]

/-- The configured environment variables; `none` models an unset variable. -/
structure EnvConfig where
  proposalIds : Option String
  slackWebhook : Option String
  errorWebhook : Option String
deriving Repr

deriving instance DecidableEq for Except

/-- What an invocation of `handler` produces: an HTTP-style response, or
a re-raised exception. -/
inductive HandlerResult where
  | response (statusCode : Nat) (body : String)
  | raised (err : String)
deriving DecidableEq, Repr

/-- Python whitespace for `str.strip`. -/
def isPySpace (c : Char) : Bool :=
  c == ' ' || c == '\t' || c == '\n' || c == '\r' || c == '\x0b' || c == '\x0c'

/-- Python `str.strip()`: remove leading and trailing whitespace. -/
def pyStrip (s : String) : String :=
  String.mk (((s.toList.dropWhile isPySpace).reverse.dropWhile isPySpace).reverse)

/-- Helper of `pySplitComma`: split a character list at a separator,
keeping empty segments, as Python `str.split(sep)` does. -/
def pySplitAux (sep : Char) : List Char → List Char → List (List Char)
  | [], acc => [acc.reverse]
  | c :: rest, acc =>
    if c = sep then acc.reverse :: pySplitAux sep rest []
    else pySplitAux sep rest (c :: acc)

/-- Python `s.split(",")`: always at least one segment; the empty string
splits to one empty segment. -/
def pySplitComma (s : String) : List String :=
  (pySplitAux (Char.ofNat 44) s.toList []).map String.mk

/-- The proposal loop inside the `try` of `handler`: strip each id, skip
empty entries, process the rest in order threading the store; the first
raising proposal aborts the loop. -/
def handlerLoop (w : World) (nowIso nowDisplay : String) (store : StoreMap) :
    List String → List Effect × Except String StoreMap
  | [] => ([], Except.ok store)
  | pid :: rest =>
    let p := pyStrip pid
    if p = "" then handlerLoop w nowIso nowDisplay store rest
    else
      let r := process_proposal w nowIso nowDisplay store p
      match r.2 with
      | Except.error e => (r.1, Except.error e)
      | Except.ok st =>
        let r2 := handlerLoop w nowIso nowDisplay st.1 rest
        (r.1 ++ r2.1, r2.2)

/-- `handler`: validate the configuration (returning a 400 response
before any external effect when the proposal id list or the notification
webhook is missing), run the proposal loop, and on an exception report it
to the error webhook when one is configured and re-raise. -/
def handler (w : World) (env : EnvConfig) (nowIso nowDisplay : String) :
    List Effect × HandlerResult :=
  match pySplitComma (env.proposalIds.getD "") with
  | [] => ([], HandlerResult.response 400 "PROPOSAL_IDS not configured")
  | first :: rest =>
    if first = "" then ([], HandlerResult.response 400 "PROPOSAL_IDS not configured")
    else if (env.slackWebhook.getD "") = "" then
      ([], HandlerResult.response 400 "SLACK_WEBHOOK_URL not configured")
    else
      let r := handlerLoop w nowIso nowDisplay w.store (first :: rest)
      match r.2 with
      | Except.ok _ => (r.1, HandlerResult.response 200 "OK")
      | Except.error e =>
        if (env.errorWebhook.getD "") = "" then (r.1, HandlerResult.raised e)
        else (r.1 ++ post_error_to_slack w e, HandlerResult.raised e)

/-! ## Lemmas about the diff loop -/

theorem alookup_append_none_left {β : Type} {l1 l2 : List (String × β)} {k : String}
    (h : alookup (l1 ++ l2) k = none) : alookup l1 k = none := by
  cases hh : alookup l1 k with
  | none => rfl
  | some v => rw [alookup_append_some l2 hh] at h; exact absurd h (by simp)

theorem foldl_voteStep_seen_mono (now : String) (votes : List Vote) :
    ∀ (acc : List Vote × SeenMap) (k : String) (r0 : SeenRecord),
      alookup acc.2 k = some r0 →
      alookup (votes.foldl (voteStep now) acc).2 k = some r0 := by
  induction votes with
  | nil => intro acc k r0 h; simpa using h
  | cons v vs ih =>
    intro acc k r0 h
    rw [List.foldl_cons]
    apply ih
    by_cases hv : (alookup acc.2 v.voter).isSome = true
    · simpa [voteStep, hv] using h
    · have hnone : alookup acc.2 v.voter = none := by
        cases hh : alookup acc.2 v.voter with
        | none => rfl
        | some x => rw [hh] at hv; simp at hv
      simp only [voteStep, hnone, Option.isSome_none, Bool.false_eq_true, if_false]
      rw [dictInsert_of_none _ hnone]
      exact alookup_append_some _ h

theorem foldl_voteStep_seen_mono_isSome (now : String) (votes : List Vote)
    (acc : List Vote × SeenMap) (k : String)
    (h : (alookup acc.2 k).isSome = true) :
    (alookup (votes.foldl (voteStep now) acc).2 k).isSome = true := by
  obtain ⟨r0, hr⟩ := Option.isSome_iff_exists.mp h
  rw [foldl_voteStep_seen_mono now votes acc k r0 hr]
  rfl

theorem foldl_voteStep_all_in (now : String) (votes : List Vote) :
    ∀ (acc : List Vote × SeenMap) (v : Vote), v ∈ votes →
      (alookup (votes.foldl (voteStep now) acc).2 v.voter).isSome = true := by
  induction votes with
  | nil => intro acc v h; exact absurd h (List.not_mem_nil v)
  | cons u vs ih =>
    intro acc v h
    rw [List.foldl_cons]
    rcases List.mem_cons.mp h with h1 | h2
    · subst h1
      apply foldl_voteStep_seen_mono_isSome
      by_cases hv : (alookup acc.2 v.voter).isSome = true
      · simp [voteStep, hv]
      · have hnone : alookup acc.2 v.voter = none := by
          cases hh : alookup acc.2 v.voter with
          | none => rfl
          | some x => rw [hh] at hv; simp at hv
        simp only [voteStep, hnone, Option.isSome_none, Bool.false_eq_true, if_false]
        rw [alookup_dictInsert_self]
        rfl
    · exact ih (voteStep now acc u) v h2

theorem foldl_voteStep_stable (now : String) (votes : List Vote) :
    ∀ (acc : List Vote × SeenMap),
      (∀ v ∈ votes, (alookup acc.2 v.voter).isSome = true) →
      votes.foldl (voteStep now) acc = acc := by
  induction votes with
  | nil => intro acc _; rfl
  | cons v vs ih =>
    intro acc h
    rw [List.foldl_cons]
    have hv : (alookup acc.2 v.voter).isSome = true := h v (List.mem_cons_self v vs)
    have hstep : voteStep now acc v = acc := by simp [voteStep, hv]
    rw [hstep]
    exact ih acc (fun u hu => h u (List.mem_cons_of_mem v hu))

theorem foldl_voteStep_new (now : String) (votes : List Vote) :
    ∀ (acc : List Vote × SeenMap) (v : Vote),
      v ∈ (votes.foldl (voteStep now) acc).1 →
      v ∈ acc.1 ∨ alookup acc.2 v.voter = none := by
  induction votes with
  | nil => intro acc v h; exact Or.inl h
  | cons u vs ih =>
    intro acc v h
    rw [List.foldl_cons] at h
    by_cases hu : (alookup acc.2 u.voter).isSome = true
    · have hstep : voteStep now acc u = acc := by simp [voteStep, hu]
      rw [hstep] at h
      exact ih acc v h
    · have hnone : alookup acc.2 u.voter = none := by
        cases hh : alookup acc.2 u.voter with
        | none => rfl
        | some x => rw [hh] at hu; simp at hu
      have hstep : voteStep now acc u =
          (acc.1 ++ [u], dictInsert acc.2 u.voter (seenRecordOf now u)) := by
        simp [voteStep, hnone]
      rw [hstep] at h
      rcases ih _ v h with h1 | h2
      · rcases List.mem_append.mp h1 with ha | hb
        · exact Or.inl ha
        · have hv : v = u := by simpa using hb
          subst hv
          exact Or.inr hnone
      · rw [dictInsert_of_none _ hnone] at h2
        exact Or.inr (alookup_append_none_left h2)

theorem foldl_voteStep_ext (now : String) (votes : List Vote) :
    ∀ (acc : List Vote × SeenMap), ∃ extra : SeenMap,
      (votes.foldl (voteStep now) acc).2 = acc.2 ++ extra ∧
      (extra.map Prod.fst).Nodup ∧
      (∀ k, k ∈ extra.map Prod.fst ↔ (k ∈ votes.map Vote.voter ∧ alookup acc.2 k = none)) := by
  induction votes with
  | nil =>
    intro acc
    exact ⟨[], by simp, by simp, by simp⟩
  | cons v vs ih =>
    intro acc
    rw [List.foldl_cons]
    by_cases hv : (alookup acc.2 v.voter).isSome = true
    · have hstep : voteStep now acc v = acc := by simp [voteStep, hv]
      rw [hstep]
      obtain ⟨extra, he, hn, hm⟩ := ih acc
      refine ⟨extra, he, hn, fun k => ?_⟩
      constructor
      · intro hk
        obtain ⟨hk1, hk2⟩ := (hm k).mp hk
        refine ⟨?_, hk2⟩
        rw [List.map_cons]
        exact List.mem_cons_of_mem _ hk1
      · intro hk
        obtain ⟨hk1, hk2⟩ := hk
        rw [List.map_cons] at hk1
        rcases List.mem_cons.mp hk1 with h1 | h2
        · exfalso
          rw [h1] at hk2
          rw [hk2] at hv
          simp at hv
        · exact (hm k).mpr ⟨h2, hk2⟩
    · have hnone : alookup acc.2 v.voter = none := by
        cases hh : alookup acc.2 v.voter with
        | none => rfl
        | some x => rw [hh] at hv; simp at hv
      have hstep : voteStep now acc v =
          (acc.1 ++ [v], acc.2 ++ [(v.voter, seenRecordOf now v)]) := by
        simp [voteStep, hnone, dictInsert_of_none _ hnone]
      rw [hstep]
      obtain ⟨extra, he, hn, hm⟩ :=
        ih (acc.1 ++ [v], acc.2 ++ [(v.voter, seenRecordOf now v)])
      have hlook : alookup (acc.2 ++ [(v.voter, seenRecordOf now v)]) v.voter =
          some (seenRecordOf now v) := by
        rw [alookup_append_none _ hnone]
        exact alookup_singleton_self v.voter (seenRecordOf now v)
      refine ⟨(v.voter, seenRecordOf now v) :: extra, ?_, ?_, ?_⟩
      · rw [he]
        simp
      · refine List.nodup_cons.mpr ⟨?_, hn⟩
        intro hmem
        obtain ⟨_, hk2⟩ := (hm v.voter).mp hmem
        rw [hlook] at hk2
        exact absurd hk2 (by simp)
      · intro k
        constructor
        · intro hk
          rw [List.map_cons] at hk
          rcases List.mem_cons.mp hk with h1 | h2
          · subst h1
            exact ⟨by simp, hnone⟩
          · obtain ⟨hk1, hk2⟩ := (hm k).mp h2
            have hkacc : alookup acc.2 k = none := alookup_append_none_left hk2
            refine ⟨?_, hkacc⟩
            rw [List.map_cons]
            exact List.mem_cons_of_mem _ hk1
        · intro hk
          obtain ⟨hk1, hk2⟩ := hk
          by_cases hkv : k = v.voter
          · subst hkv
            simp
          · have h2 : k ∈ vs.map Vote.voter := by
              rw [List.map_cons] at hk1
              rcases List.mem_cons.mp hk1 with h1 | h2
              · exact absurd h1 hkv
              · exact h2
            have hk2s : alookup (acc.2 ++ [(v.voter, seenRecordOf now v)]) k = none := by
              rw [alookup_append_none _ hk2]
              exact alookup_singleton_ne (seenRecordOf now v) (fun hh => hkv hh.symm)
            have hmem : k ∈ extra.map Prod.fst := (hm k).mpr ⟨h2, hk2s⟩
            simp [hmem]

/-! ## Lemmas about the notification loop and the store -/

theorem notifyLoop_of_posts_ok (w : World) (proposal_id now : String)
    (dir : List (String × ValidatorInfo)) (vs : List Vote)
    (h : ∀ m, w.post m = Except.ok ()) :
    notifyLoop w proposal_id now dir vs =
      (vs.map (fun v => Effect.postSlack (compose_message v proposal_id dir now)),
       Except.ok ()) := by
  induction vs with
  | nil => rfl
  | cons v rest ih =>
    simp only [notifyLoop, h, List.map_cons]
    rw [ih]

theorem notifyLoop_effects_are_posts (w : World) (proposal_id now : String)
    (dir : List (String × ValidatorInfo)) (vs : List Vote) :
    ∀ e ∈ (notifyLoop w proposal_id now dir vs).1, ∃ m, e = Effect.postSlack m := by
  induction vs with
  | nil => intro e he; exact absurd he (List.not_mem_nil e)
  | cons v rest ih =>
    intro e he
    simp only [notifyLoop] at he
    cases hp : w.post (compose_message v proposal_id dir now) with
    | error err =>
      rw [hp] at he
      simp at he
      exact ⟨_, he⟩
    | ok u =>
      rw [hp] at he
      simp at he
      rcases he with h1 | h2
      · exact ⟨_, h1⟩
      · exact ih e h2

theorem storeGet_storeSet_self (store : StoreMap) (key : String) (value : SeenMap) :
    storeGet (storeSet store key value) key = some value :=
  alookup_dictInsert_self store key value

/-! ## Lemmas about pagination -/

theorem fetch_votes_loop_spec (init : List VotesPage) (lastPage : VotesPage) :
    ∀ tok : Option String,
      (∀ p ∈ init, truthy p.next_key = true) →
      truthy lastPage.next_key = false →
      fetch_votes_loop tok (init ++ [lastPage]) =
        (Request.mk "100" (if truthy tok then tok else none) ::
           init.map (fun p => Request.mk "100" p.next_key),
         ((init ++ [lastPage]).map (fun p => p.votes.getD [])).flatten) := by
  induction init with
  | nil =>
    intro tok _ hlast
    simp [fetch_votes_loop, hlast]
  | cons p rest ih =>
    intro tok hinit hlast
    have hp : truthy p.next_key = true := hinit p (List.mem_cons_self p rest)
    have hrest : ∀ q ∈ rest, truthy q.next_key = true :=
      fun q hq => hinit q (List.mem_cons_of_mem p hq)
    have ihp := ih p.next_key hrest hlast
    simp only [List.cons_append, fetch_votes_loop, hp, if_true, List.append_eq]
    rw [ihp]
    simp [hp]

/-! ## Lemmas about the validator fetch -/

theorem fetch_validators_loop_spec (init : List ValidatorsPage) (lastPage : ValidatorsPage) :
    ∀ (tok : Option String) (st : List (String × ValidatorInfo) × Int),
      (∀ p ∈ init, truthy p.next_key = true) →
      truthy lastPage.next_key = false →
      fetch_validators_loop tok st (init ++ [lastPage]) =
        (allRaws (init ++ [lastPage])).foldl validatorStep st := by
  induction init with
  | nil =>
    intro tok st _ hlast
    simp [fetch_validators_loop, hlast, allRaws]
  | cons p rest ih =>
    intro tok st hinit hlast
    have hp : truthy p.next_key = true := hinit p (List.mem_cons_self p rest)
    have hrest : ∀ q ∈ rest, truthy q.next_key = true :=
      fun q hq => hinit q (List.mem_cons_of_mem p hq)
    simp only [List.cons_append, fetch_validators_loop, hp, if_true, List.append_eq]
    rw [ih p.next_key _ hrest hlast]
    simp [allRaws, List.foldl_append]

theorem foldl_validatorStep_total (l : List ValidatorRaw) :
    ∀ st : List (String × ValidatorInfo) × Int,
      (l.foldl validatorStep st).2 = st.2 + (l.map (fun v => v.tokens)).sum := by
  induction l with
  | nil => intro st; simp
  | cons v rest ih =>
    intro st
    rw [List.foldl_cons, ih]
    simp [validatorStep]
    omega

theorem foldl_validatorStep_entries (l : List ValidatorRaw) :
    ∀ st : List (String × ValidatorInfo) × Int,
      (st.1.map Prod.fst ++ l.map (fun v => v.operator_address)).Nodup →
      (l.foldl validatorStep st).1 =
        st.1 ++ l.map (fun v => (v.operator_address, rawInfo v)) := by
  induction l with
  | nil => intro st _; simp
  | cons v rest ih =>
    intro st hnd
    have hvnotin : v.operator_address ∉ st.1.map Prod.fst := by
      rcases List.nodup_append.mp hnd with ⟨_, _, hdisj⟩
      intro hmem
      exact hdisj hmem (by simp)
    have hlook : alookup st.1 v.operator_address = none :=
      alookup_eq_none_of_not_mem hvnotin
    have hstep : validatorStep st v =
        (st.1 ++ [(v.operator_address, rawInfo v)], st.2 + v.tokens) := by
      simp [validatorStep, dictInsert_of_none _ hlook]
    rw [List.foldl_cons, hstep]
    have hnd2 : ((st.1 ++ [(v.operator_address, rawInfo v)]).map Prod.fst ++
        rest.map (fun u => u.operator_address)).Nodup := by
      rw [List.map_append]
      simp only [List.map_cons, List.map_nil]
      rw [← List.append_cons]
      simp only [List.map_cons] at hnd
      exact hnd
    rw [ih (st.1 ++ [(v.operator_address, rawInfo v)], st.2 + v.tokens) hnd2]
    rw [List.append_assoc, List.singleton_append, List.map_cons]

theorem sum_map_div_mul (l : List Int) (T : Rat) :
    (l.map (fun t : Int => (t : Rat) / T * 100)).sum =
      (l.map (fun t : Int => (t : Rat))).sum / T * 100 := by
  induction l with
  | nil => simp
  | cons t rest ih =>
    simp only [List.map_cons, List.sum_cons, ih]
    ring

theorem sum_map_intCast (l : List Int) :
    ((l.sum : Int) : Rat) = (l.map (fun t : Int => (t : Rat))).sum := by
  induction l with
  | nil => simp
  | cons t rest ih =>
    rw [List.sum_cons, Int.cast_add, ih, List.map_cons, List.sum_cons]

/-! ## Lemmas about the orchestrator -/

/-- Recognizer for the validator fetch effect. -/
def isValidatorFetch (e : Effect) : Bool :=
  match e with
  | Effect.fetchValidators => true
  | _ => false

theorem process_proposal_error_no_storeSet (w : World) (nowIso nowDisplay : String)
    (store : StoreMap) (proposal_id : String) (err : String)
    (h : (process_proposal w nowIso nowDisplay store proposal_id).2 = Except.error err) :
    ∀ key value, Effect.storeSet key value ∉
      (process_proposal w nowIso nowDisplay store proposal_id).1 := by
  intro key value
  unfold process_proposal at h ⊢
  cases hv : w.votes proposal_id with
  | error e => simp [hv]
  | ok votes =>
    cases hval : w.validators with
    | error e => simp [hv, hval]
    | ok validators =>
      simp only [hv, hval] at h ⊢
      cases hn : (notifyLoop w proposal_id nowDisplay
          (build_account_to_validator_mapping validators)
          (vote_diff nowIso votes ((storeGet store (seenKey proposal_id)).getD [])).1).2 with
      | error e =>
        simp only [hn]
        intro hmem
        rcases List.mem_append.mp hmem with h1 | h2
        · simp at h1
        · obtain ⟨m, hm⟩ := notifyLoop_effects_are_posts w proposal_id nowDisplay
            (build_account_to_validator_mapping validators) _ _ h2
          simp at hm
      | ok u => simp [hn] at h

theorem process_proposal_no_postError (w : World) (nowIso nowDisplay : String)
    (store : StoreMap) (proposal_id : String) :
    ∀ m, Effect.postError m ∉ (process_proposal w nowIso nowDisplay store proposal_id).1 := by
  intro m
  unfold process_proposal
  cases hv : w.votes proposal_id with
  | error e => simp
  | ok votes =>
    cases hval : w.validators with
    | error e => simp
    | ok validators =>
      simp only []
      cases hn : (notifyLoop w proposal_id nowDisplay
          (build_account_to_validator_mapping validators)
          (vote_diff nowIso votes ((storeGet store (seenKey proposal_id)).getD [])).1).2 with
      | error e =>
        simp only [hn]
        intro hmem
        rcases List.mem_append.mp hmem with h1 | h2
        · simp at h1
        · obtain ⟨m2, hm⟩ := notifyLoop_effects_are_posts w proposal_id nowDisplay
            (build_account_to_validator_mapping validators) _ _ h2
          simp at hm
      | ok u =>
        simp only [hn]
        intro hmem
        rcases List.mem_append.mp hmem with h1 | h2
        · rcases List.mem_append.mp h1 with h3 | h4
          · simp at h3
          · obtain ⟨m2, hm⟩ := notifyLoop_effects_are_posts w proposal_id nowDisplay
              (build_account_to_validator_mapping validators) _ _ h4
            simp at hm
        · simp at h2

theorem process_proposal_ok_validatorFetch_count (w : World) (nowIso nowDisplay : String)
    (store : StoreMap) (proposal_id : String) (res : StoreMap × Nat)
    (h : (process_proposal w nowIso nowDisplay store proposal_id).2 = Except.ok res) :
    ((process_proposal w nowIso nowDisplay store proposal_id).1.countP isValidatorFetch) = 1 := by
  unfold process_proposal at h ⊢
  cases hv : w.votes proposal_id with
  | error e => rw [hv] at h; simp at h
  | ok votes =>
    cases hval : w.validators with
    | error e => rw [hv, hval] at h; simp [hv, hval] at h
    | ok validators =>
      simp only [hv, hval] at h ⊢
      cases hn : (notifyLoop w proposal_id nowDisplay
          (build_account_to_validator_mapping validators)
          (vote_diff nowIso votes ((storeGet store (seenKey proposal_id)).getD [])).1).2 with
      | error e => rw [hn] at h; simp at h
      | ok u =>
        simp only [hn]
        rw [List.countP_append, List.countP_append]
        have hzero : ((notifyLoop w proposal_id nowDisplay
            (build_account_to_validator_mapping validators)
            (vote_diff nowIso votes
              ((storeGet store (seenKey proposal_id)).getD [])).1).1.countP isValidatorFetch)
            = 0 := by
          rw [List.countP_eq_zero]
          intro e he
          obtain ⟨m, hm⟩ := notifyLoop_effects_are_posts w proposal_id nowDisplay
            (build_account_to_validator_mapping validators) _ _ he
          subst hm
          simp [isValidatorFetch]
        rw [hzero]
        rfl

theorem handlerLoop_error_prefix (w : World) (nowIso nowDisplay : String)
    (ids2 : List String) :
    ∀ (ids1 : List String) (store : StoreMap) (err : String),
      (handlerLoop w nowIso nowDisplay store ids1).2 = Except.error err →
      handlerLoop w nowIso nowDisplay store (ids1 ++ ids2) =
        handlerLoop w nowIso nowDisplay store ids1 := by
  intro ids1
  induction ids1 with
  | nil => intro store err h; simp [handlerLoop] at h
  | cons pid rest ih =>
    intro store err h
    rw [List.cons_append]
    by_cases hp : pyStrip pid = ""
    · simp only [handlerLoop, hp, if_true] at h ⊢
      exact ih store err h
    · simp only [handlerLoop, hp, if_false] at h ⊢
      cases hr : (process_proposal w nowIso nowDisplay store (pyStrip pid)).2 with
      | error e => simp [hr]
      | ok st =>
        simp only [hr] at h ⊢
        rw [ih st.1 err h]

theorem handlerLoop_ok_validatorFetch_count (w : World) (nowIso nowDisplay : String) :
    ∀ (ids : List String) (store : StoreMap) (res : StoreMap),
      (handlerLoop w nowIso nowDisplay store ids).2 = Except.ok res →
      ((handlerLoop w nowIso nowDisplay store ids).1.countP isValidatorFetch) =
        ids.countP (fun pid => !(pyStrip pid == "")) := by
  intro ids
  induction ids with
  | nil => intro store res _; rfl
  | cons pid rest ih =>
    intro store res h
    by_cases hp : pyStrip pid = ""
    · simp only [handlerLoop, hp, if_true] at h ⊢
      rw [ih store res h]
      rw [List.countP_cons]
      simp [hp]
    · simp only [handlerLoop, hp, if_false] at h ⊢
      cases hr : (process_proposal w nowIso nowDisplay store (pyStrip pid)).2 with
      | error e => rw [hr] at h; simp at h
      | ok st =>
        simp only [hr] at h ⊢
        rw [List.countP_append,
          process_proposal_ok_validatorFetch_count w nowIso nowDisplay store (pyStrip pid) st hr,
          ih st.1 res h, List.countP_cons]
        simp [hp]
        omega

theorem handlerLoop_no_postError (w : World) (nowIso nowDisplay : String) :
    ∀ (ids : List String) (store : StoreMap) (m : String),
      Effect.postError m ∉ (handlerLoop w nowIso nowDisplay store ids).1 := by
  intro ids
  induction ids with
  | nil => intro store m h; exact absurd h (List.not_mem_nil _)
  | cons pid rest ih =>
    intro store m
    by_cases hp : pyStrip pid = ""
    · simp only [handlerLoop, hp, if_true]
      exact ih store m
    · simp only [handlerLoop, hp, if_false]
      cases hr : (process_proposal w nowIso nowDisplay store (pyStrip pid)).2 with
      | error e =>
        simp only [hr]
        exact process_proposal_no_postError w nowIso nowDisplay store (pyStrip pid) m
      | ok st =>
        simp only [hr]
        intro hmem
        rcases List.mem_append.mp hmem with h1 | h2
        · exact process_proposal_no_postError w nowIso nowDisplay store (pyStrip pid) m h1
        · exact ih st.1 m h2

/-! ## Irrelevance of the error sink outcome -/

theorem post_error_to_slack_eq (w : World) (error_message : String) :
    post_error_to_slack w error_message = [Effect.postError (errorText error_message)] := by
  unfold post_error_to_slack
  cases w.errorPost (errorText error_message) with
  | error e => rfl
  | ok u => rfl

theorem notifyLoop_errorPost_irrelevant (w : World) (f : String → Except String Unit)
    (proposal_id now : String) (dir : List (String × ValidatorInfo)) (vs : List Vote) :
    notifyLoop { w with errorPost := f } proposal_id now dir vs =
      notifyLoop w proposal_id now dir vs := by
  induction vs with
  | nil => rfl
  | cons v rest ih =>
    simp only [notifyLoop, ih]

theorem process_proposal_errorPost_irrelevant (w : World)
    (f : String → Except String Unit) (nowIso nowDisplay : String) (store : StoreMap)
    (proposal_id : String) :
    process_proposal { w with errorPost := f } nowIso nowDisplay store proposal_id =
      process_proposal w nowIso nowDisplay store proposal_id := by
  unfold process_proposal
  simp only [notifyLoop_errorPost_irrelevant]

theorem handlerLoop_errorPost_irrelevant (w : World) (f : String → Except String Unit)
    (nowIso nowDisplay : String) :
    ∀ (ids : List String) (store : StoreMap),
      handlerLoop { w with errorPost := f } nowIso nowDisplay store ids =
        handlerLoop w nowIso nowDisplay store ids := by
  intro ids
  induction ids with
  | nil => intro store; rfl
  | cons pid rest ih =>
    intro store
    by_cases hp : pyStrip pid = ""
    · simp only [handlerLoop, hp, if_true]
      exact ih store
    · simp only [handlerLoop, hp, if_false]
      rw [process_proposal_errorPost_irrelevant]
      simp only [ih]

/-- The full behaviour of `process_proposal` on the success path: the
effect trace is the two fetches, the store read, one notification per
new vote in order, and the final store write of the updated mapping. -/
theorem process_proposal_ok_spec (w : World) (nowIso nowDisplay : String)
    (store : StoreMap) (proposal_id : String) (votes : List Vote)
    (validators : List (String × ValidatorInfo))
    (hv : w.votes proposal_id = Except.ok votes)
    (hval : w.validators = Except.ok validators)
    (hpost : ∀ m, w.post m = Except.ok ()) :
    process_proposal w nowIso nowDisplay store proposal_id =
      ([Effect.fetchVotes proposal_id, Effect.fetchValidators,
          Effect.storeGet (seenKey proposal_id)] ++
        (vote_diff nowIso votes ((storeGet store (seenKey proposal_id)).getD [])).1.map
          (fun v => Effect.postSlack
            (compose_message v proposal_id
              (build_account_to_validator_mapping validators) nowDisplay)) ++
        [Effect.storeSet (seenKey proposal_id)
          (vote_diff nowIso votes ((storeGet store (seenKey proposal_id)).getD [])).2],
       Except.ok
         (storeSet store (seenKey proposal_id)
           (vote_diff nowIso votes ((storeGet store (seenKey proposal_id)).getD [])).2,
          (vote_diff nowIso votes ((storeGet store (seenKey proposal_id)).getD [])).1.length)) := by
  unfold process_proposal
  simp only [hv, hval, notifyLoop_of_posts_ok w proposal_id nowDisplay _ _ hpost]

/-! ## Claim C1 -/

/-- Claim C1: for every proposal and every sequence of fetched votes,
`process_proposal` never treats a voter already present in the loaded
seen mapping as new: no such vote appears among the new votes (hence
none is notified), the stored record of every previously seen voter is
unchanged even when the fetched option differs, and the persisted state
is exactly the prior state extended with one entry per voter of the
fetched votes that was not previously in the mapping. -/
theorem claim_c1_seen_voters_never_new (w : World) (nowIso nowDisplay : String)
    (store : StoreMap) (proposal_id : String) (votes : List Vote)
    (validators : List (String × ValidatorInfo))
    (hv : w.votes proposal_id = Except.ok votes)
    (hval : w.validators = Except.ok validators)
    (hpost : ∀ m, w.post m = Except.ok ()) :
    let seen0 := (storeGet store (seenKey proposal_id)).getD []
    let d := vote_diff nowIso votes seen0
    (∀ v ∈ d.1, alookup seen0 v.voter = none) ∧
    (∀ k r0, alookup seen0 k = some r0 → alookup d.2 k = some r0) ∧
    process_proposal w nowIso nowDisplay store proposal_id =
      ([Effect.fetchVotes proposal_id, Effect.fetchValidators,
          Effect.storeGet (seenKey proposal_id)] ++
        d.1.map (fun v => Effect.postSlack
          (compose_message v proposal_id
            (build_account_to_validator_mapping validators) nowDisplay)) ++
        [Effect.storeSet (seenKey proposal_id) d.2],
       Except.ok (storeSet store (seenKey proposal_id) d.2, d.1.length)) ∧
    (∃ extra : SeenMap,
      d.2 = seen0 ++ extra ∧
      (extra.map Prod.fst).Nodup ∧
      (∀ k, k ∈ extra.map Prod.fst ↔
        (k ∈ votes.map Vote.voter ∧ alookup seen0 k = none))) := by
  intro seen0 d
  refine ⟨?_, ?_, ?_, ?_⟩
  · intro v hvmem
    rcases foldl_voteStep_new nowIso votes ([], seen0) v hvmem with h1 | h2
    · exact absurd h1 (List.not_mem_nil v)
    · exact h2
  · intro k r0 h
    exact foldl_voteStep_seen_mono nowIso votes ([], seen0) k r0 h
  · exact process_proposal_ok_spec w nowIso nowDisplay store proposal_id votes validators
      hv hval hpost
  · exact foldl_voteStep_ext nowIso votes ([], seen0)

/-! Concrete data shared by the witnesses: a proposal with one
already-seen voter (whose fetched option differs from the recorded one)
and one new voter. -/

/-- A vote by a voter that is already in the stored seen mapping, with a
different option than recorded. -/
def exVoteA : Vote := { voter := "alice", options := [{ option := "VOTE_OPTION_YES" }] }

/-- A vote by a previously unseen voter, carrying no option entries. -/
def exVoteB : Vote := { voter := "bob", options := [] }

/-- A stored seen mapping containing only the first voter, with a
recorded option differing from the fetched one. -/
def exSeen : SeenMap := [("alice", { option := "VOTE_OPTION_NO", timestamp := "t0" })]

/-- A store holding the seen mapping of proposal 7. -/
def exStore : StoreMap := [("seen_votes_7", exSeen)]

/-- A world where every call succeeds: both votes are fetched for any
proposal, the bonded set is empty, and posts are accepted. -/
def exWorldOk : World :=
  { votes := fun _ => Except.ok [exVoteA, exVoteB],
    validators := Except.ok [],
    store := exStore,
    post := fun _ => Except.ok (),
    errorPost := fun _ => Except.ok () }

/-- Witness for claim C1 at a concrete input: voter `alice` is already
seen with a different option, voter `bob` is new. -/
theorem claim_c1_seen_voters_never_new_witness :
    let seen0 := (storeGet exStore (seenKey "7")).getD []
    let d := vote_diff "t1" [exVoteA, exVoteB] seen0
    (∀ v ∈ d.1, alookup seen0 v.voter = none) ∧
    (∀ k r0, alookup seen0 k = some r0 → alookup d.2 k = some r0) ∧
    process_proposal exWorldOk "t1" "disp" exStore "7" =
      ([Effect.fetchVotes "7", Effect.fetchValidators, Effect.storeGet (seenKey "7")] ++
        d.1.map (fun v => Effect.postSlack
          (compose_message v "7" (build_account_to_validator_mapping []) "disp")) ++
        [Effect.storeSet (seenKey "7") d.2],
       Except.ok (storeSet exStore (seenKey "7") d.2, d.1.length)) ∧
    (∃ extra : SeenMap,
      d.2 = seen0 ++ extra ∧
      (extra.map Prod.fst).Nodup ∧
      (∀ k, k ∈ extra.map Prod.fst ↔
        (k ∈ [exVoteA, exVoteB].map Vote.voter ∧ alookup seen0 k = none))) :=
  claim_c1_seen_voters_never_new exWorldOk "t1" "disp" exStore "7" [exVoteA, exVoteB] []
    rfl rfl (fun _ => rfl)

/-! ## Claim C2 -/

/-- The behaviour of `process_proposal` when the loaded seen mapping
already covers every fetched voter: no new votes, no notification, a
rewrite of the same mapping. -/
theorem process_proposal_noop_spec (w : World) (nowIso2 nowDisplay2 : String)
    (store2 : StoreMap) (proposal_id : String) (votes : List Vote)
    (validators : List (String × ValidatorInfo)) (S1 : SeenMap)
    (hv : w.votes proposal_id = Except.ok votes)
    (hval : w.validators = Except.ok validators)
    (hload : (storeGet store2 (seenKey proposal_id)).getD [] = S1)
    (hstable : vote_diff nowIso2 votes S1 = ([], S1)) :
    process_proposal w nowIso2 nowDisplay2 store2 proposal_id =
      ([Effect.fetchVotes proposal_id, Effect.fetchValidators,
          Effect.storeGet (seenKey proposal_id), Effect.storeSet (seenKey proposal_id) S1],
       Except.ok (storeSet store2 (seenKey proposal_id) S1, 0)) := by
  unfold process_proposal
  simp only [hv, hval, hload, hstable, notifyLoop, List.length_nil, List.append_nil]
  rfl

/-- Claim C2: the Vote Diff Engine is idempotent. Re-running
`process_proposal` with the same fetched votes against the state
persisted by a first run produces no new votes (the diff is empty, the
trace contains no notification post), and persists a mapping identical
to the one it loaded. -/
theorem claim_c2_idempotent (w : World) (nowIso1 nowIso2 nowDisplay2 : String)
    (store : StoreMap) (proposal_id : String) (votes : List Vote)
    (validators : List (String × ValidatorInfo))
    (hv : w.votes proposal_id = Except.ok votes)
    (hval : w.validators = Except.ok validators) :
    let seen0 := (storeGet store (seenKey proposal_id)).getD []
    let seen1 := (vote_diff nowIso1 votes seen0).2
    let store1 := storeSet store (seenKey proposal_id) seen1
    vote_diff nowIso2 votes seen1 = ([], seen1) ∧
    process_proposal w nowIso2 nowDisplay2 store1 proposal_id =
      ([Effect.fetchVotes proposal_id, Effect.fetchValidators,
          Effect.storeGet (seenKey proposal_id),
          Effect.storeSet (seenKey proposal_id) seen1],
       Except.ok (storeSet store1 (seenKey proposal_id) seen1, 0)) ∧
    storeGet (storeSet store1 (seenKey proposal_id) seen1) (seenKey proposal_id) =
      some seen1 := by
  intro seen0 seen1 store1
  have hall : ∀ v ∈ votes, (alookup seen1 v.voter).isSome = true :=
    fun v hv2 => foldl_voteStep_all_in nowIso1 votes ([], seen0) v hv2
  have hstable : vote_diff nowIso2 votes seen1 = ([], seen1) :=
    foldl_voteStep_stable nowIso2 votes ([], seen1) hall
  refine ⟨hstable, ?_, storeGet_storeSet_self store1 (seenKey proposal_id) seen1⟩
  have hload : (storeGet store1 (seenKey proposal_id)).getD [] = seen1 := by
    rw [storeGet_storeSet_self]
    rfl
  exact process_proposal_noop_spec w nowIso2 nowDisplay2 store1 proposal_id votes
    validators seen1 hv hval hload hstable

/-- Witness for claim C2 at a concrete input: the second run over the
persisted state yields no new votes and rewrites the same mapping. -/
theorem claim_c2_idempotent_witness :
    let seen0 := (storeGet exStore (seenKey "7")).getD []
    let seen1 := (vote_diff "t1" [exVoteA, exVoteB] seen0).2
    let store1 := storeSet exStore (seenKey "7") seen1
    vote_diff "t2" [exVoteA, exVoteB] seen1 = ([], seen1) ∧
    process_proposal exWorldOk "t2" "d2" store1 "7" =
      ([Effect.fetchVotes "7", Effect.fetchValidators, Effect.storeGet (seenKey "7"),
        Effect.storeSet (seenKey "7") seen1],
       Except.ok (storeSet store1 (seenKey "7") seen1, 0)) ∧
    storeGet (storeSet store1 (seenKey "7") seen1) (seenKey "7") = some seen1 :=
  claim_c2_idempotent exWorldOk "t1" "t2" "d2" exStore "7" [exVoteA, exVoteB] [] rfl rfl

/-! ## Claim C3 -/

/-- Claim C3: over a page sequence in which every page before the last
carries a truthy (non-absent, non-empty) `next_key` and the final page
does not, `fetch_all_votes` issues exactly one request per page — the
first without a continuation token, each later one with limit 100 and
the previous page's token — and returns the concatenation of all pages'
item lists in page order, a missing items field counting as empty. -/
theorem claim_c3_pagination_termination (init : List VotesPage) (lastPage : VotesPage)
    (h1 : ∀ p ∈ init, truthy p.next_key = true)
    (h2 : truthy lastPage.next_key = false) :
    fetch_all_votes (init ++ [lastPage]) =
      (Request.mk "100" none :: init.map (fun p => Request.mk "100" p.next_key),
       ((init ++ [lastPage]).map (fun p => p.votes.getD [])).flatten) ∧
    (fetch_all_votes (init ++ [lastPage])).1.length = (init ++ [lastPage]).length := by
  have hs := fetch_votes_loop_spec init lastPage none h1 h2
  constructor
  · rw [fetch_all_votes, hs]
    rfl
  · rw [fetch_all_votes, hs]
    simp

/-- First page of the witness scenario for pagination. -/
def exPage1 : VotesPage := { votes := some [exVoteA], next_key := some "k1" }

/-- Final page of the witness scenario: items field missing, no next key. -/
def exPage2 : VotesPage := { votes := none, next_key := none }

/-- Witness for claim C3 at a concrete two-page fetch. -/
theorem claim_c3_pagination_termination_witness :
    fetch_all_votes ([exPage1] ++ [exPage2]) =
      (Request.mk "100" none :: [exPage1].map (fun p => Request.mk "100" p.next_key),
       (([exPage1] ++ [exPage2]).map (fun p => p.votes.getD [])).flatten) ∧
    (fetch_all_votes ([exPage1] ++ [exPage2])).1.length = ([exPage1] ++ [exPage2]).length :=
  claim_c3_pagination_termination [exPage1] exPage2 (by decide) (by decide)

/-! ## Claim C4 -/

/-- Claim C4 (amended): for every string that the checksummed bech32
decoding maps to the prefix `cosmosvaloper` and a payload,
`operator_to_account` returns that payload re-encoded under the prefix
`cosmos`; for every string that decodes to a different prefix, and for
every string whose decoding fails (malformed checksum, wrong character
set, invalid casing or framing), it returns nothing. The embedding is a
pure function, so determinism and absence of side effects hold by
construction. Unlike the original claim, a string with an empty payload
and a valid checksum decodes successfully and is re-encoded, not
rejected. -/
theorem claim_c4_address_codec (s : String) :
    (∀ data : List Nat, bech32_decode s = some ("cosmosvaloper", data) →
       operator_to_account s = some (bech32_encode "cosmos" data)) ∧
    (∀ hrp data, bech32_decode s = some (hrp, data) → hrp ≠ "cosmosvaloper" →
       operator_to_account s = none) ∧
    (bech32_decode s = none → operator_to_account s = none) := by
  refine ⟨?_, ?_, ?_⟩
  · intro data h
    simp [operator_to_account, h]
  · intro hrp data h hne
    simp [operator_to_account, h, hne]
  · intro h
    simp [operator_to_account, h]

set_option maxRecDepth 10000 in
/-- Witness for claim C4 at a concrete operator address whose payload is
`[3, 4, 5]`. -/
theorem claim_c4_address_codec_witness :
    bech32_decode "cosmosvaloper1ry9wefp6l" = some ("cosmosvaloper", [3, 4, 5]) ∧
    operator_to_account "cosmosvaloper1ry9wefp6l" =
      some (bech32_encode "cosmos" [3, 4, 5]) :=
  ⟨by decide,
   (claim_c4_address_codec "cosmosvaloper1ry9wefp6l").1 [3, 4, 5] (by decide)⟩

set_option maxRecDepth 10000 in
/-- Counterexample to claim C4 as stated: `cosmosvaloper1sxnktm` has an
empty payload with a valid checksum; its decoding succeeds and
`operator_to_account` returns a re-encoded address instead of nothing. -/
theorem claim_c4_address_codec_counterexample :
    bech32_decode "cosmosvaloper1sxnktm" = some ("cosmosvaloper", []) ∧
    operator_to_account "cosmosvaloper1sxnktm" = some "cosmos1550dq7" ∧
    ¬ operator_to_account "cosmosvaloper1sxnktm" = none := by
  refine ⟨by decide, by decide, ?_⟩
  intro h
  exact absurd h (by decide)

/-! ## Claim C10 -/

/-- Claim C10: the composed message maps the vote option through the
fixed table (`VOTE_OPTION_YES` to `Yes`, `VOTE_OPTION_NO` to `No`,
`VOTE_OPTION_ABSTAIN` to `Abstain`, `VOTE_OPTION_NO_WITH_VETO` to
`NoWithVeto`), passes any unrecognized value through unchanged, and,
when the voter has no validator-directory entry, shows the voter
identity truncated to its first 12 and last 6 characters joined by an
ellipsis exactly when its length exceeds 20 characters, verbatim
otherwise. -/
theorem claim_c10_composer (o : String) (v : Vote) (proposal_id ts : String)
    (dir : List (String × ValidatorInfo)) (opt : VoteOption) (rest : List VoteOption)
    (h1 : o ≠ "VOTE_OPTION_YES") (h2 : o ≠ "VOTE_OPTION_NO")
    (h3 : o ≠ "VOTE_OPTION_ABSTAIN") (h4 : o ≠ "VOTE_OPTION_NO_WITH_VETO")
    (h5 : alookup dir v.voter = none) (h6 : v.options = opt :: rest) :
    (format_vote_option "VOTE_OPTION_YES" = "Yes" ∧
     format_vote_option "VOTE_OPTION_NO" = "No" ∧
     format_vote_option "VOTE_OPTION_ABSTAIN" = "Abstain" ∧
     format_vote_option "VOTE_OPTION_NO_WITH_VETO" = "NoWithVeto") ∧
    format_vote_option o = o ∧
    compose_message v proposal_id dir ts =
      (if 20 < v.voter.length
        then v.voter.take 12 ++ "..." ++ v.voter.takeRight 6
        else v.voter) ++
        " votes " ++ format_vote_option opt.option ++ " on proposal " ++ proposal_id ++
        " at " ++ ts := by
  refine ⟨⟨by decide, by decide, by decide, by decide⟩, ?_, ?_⟩
  · simp [format_vote_option, h1, h2, h3, h4]
  · simp only [compose_message, h5, h6]

/-- A vote from a 25-character voter identity that has no validator
entry and an option outside the fixed table. -/
def exVoteLong : Vote :=
  { voter := "someveryverylongvoterid25", options := [{ option := "VOTE_OPTION_SPAM" }] }

/-- Witness for claim C10: the unknown option passes through and the
25-character identity is truncated to its first 12 and last 6
characters. -/
theorem claim_c10_composer_witness :
    (format_vote_option "VOTE_OPTION_YES" = "Yes" ∧
     format_vote_option "VOTE_OPTION_NO" = "No" ∧
     format_vote_option "VOTE_OPTION_ABSTAIN" = "Abstain" ∧
     format_vote_option "VOTE_OPTION_NO_WITH_VETO" = "NoWithVeto") ∧
    format_vote_option "VOTE_OPTION_SPAM" = "VOTE_OPTION_SPAM" ∧
    compose_message exVoteLong "7" [] "d1" =
      (if 20 < exVoteLong.voter.length
        then exVoteLong.voter.take 12 ++ "..." ++ exVoteLong.voter.takeRight 6
        else exVoteLong.voter) ++
        " votes " ++ format_vote_option (VoteOption.mk "VOTE_OPTION_SPAM").option ++
        " on proposal " ++ "7" ++ " at " ++ "d1" :=
  claim_c10_composer "VOTE_OPTION_SPAM" exVoteLong "7" "d1" []
    (VoteOption.mk "VOTE_OPTION_SPAM") [] (by decide) (by decide) (by decide) (by decide)
    rfl rfl

/-! ## Claim C9 -/

/-- Claim C9: whenever the proposal id list is missing or empty, or the
notification webhook is unset or empty, `handler` returns a status-400
response with an empty effect trace — no network request and no store
access happen. -/
theorem claim_c9_config_short_circuit (w : World) (env : EnvConfig)
    (nowIso nowDisplay : String)
    (h : env.proposalIds.getD "" = "" ∨ env.slackWebhook.getD "" = "") :
    (handler w env nowIso nowDisplay).1 = [] ∧
    ∃ body, handler w env nowIso nowDisplay = ([], HandlerResult.response 400 body) := by
  cases hm : pySplitComma (env.proposalIds.getD "") with
  | nil =>
    have hh : handler w env nowIso nowDisplay =
        ([], HandlerResult.response 400 "PROPOSAL_IDS not configured") := by
      unfold handler
      rw [hm]
    exact ⟨by rw [hh], "PROPOSAL_IDS not configured", hh⟩
  | cons first rest =>
    by_cases hf : first = ""
    · have hh : handler w env nowIso nowDisplay =
          ([], HandlerResult.response 400 "PROPOSAL_IDS not configured") := by
        unfold handler
        rw [hm]
        simp [hf]
      exact ⟨by rw [hh], "PROPOSAL_IDS not configured", hh⟩
    · rcases h with h | h
      · exfalso
        rw [h] at hm
        have hsingle : pySplitComma "" = [""] := rfl
        rw [hsingle] at hm
        have hfirst : "" = first := ((List.cons.injEq "" [] first rest).mp hm).1
        exact hf hfirst.symm
      · have hh : handler w env nowIso nowDisplay =
            ([], HandlerResult.response 400 "SLACK_WEBHOOK_URL not configured") := by
          unfold handler
          rw [hm]
          simp [hf, h]
        exact ⟨by rw [hh], "SLACK_WEBHOOK_URL not configured", hh⟩

/-- A configuration with no proposal ids. -/
def exEnvNoIds : EnvConfig :=
  { proposalIds := none, slackWebhook := some "hook", errorWebhook := none }

/-- Witness for claim C9: with `PROPOSAL_IDS` unset the handler returns
400 and performs no effect. -/
theorem claim_c9_config_short_circuit_witness :
    (handler exWorldOk exEnvNoIds "t1" "d1").1 = [] ∧
    ∃ body, handler exWorldOk exEnvNoIds "t1" "d1" = ([], HandlerResult.response 400 body) :=
  claim_c9_config_short_circuit exWorldOk exEnvNoIds "t1" "d1" (Or.inl rfl)

/-! ## Claim C5 -/

/-- Claim C5 (amended): the validator directory is rebuilt for every
processed proposal — in a successful run the bonded-validator resource
is fetched once per non-empty configured proposal id, not once per
invocation. -/
theorem claim_c5_amended_validator_fetch_per_proposal (w : World) (env : EnvConfig)
    (nowIso nowDisplay idsStr first : String) (rest : List String) (res : StoreMap)
    (hids : env.proposalIds = some idsStr)
    (hsplit : pySplitComma idsStr = first :: rest)
    (hf : first ≠ "")
    (hslack : env.slackWebhook.getD "" ≠ "")
    (hok : (handlerLoop w nowIso nowDisplay w.store (first :: rest)).2 = Except.ok res) :
    ((handler w env nowIso nowDisplay).1.countP isValidatorFetch) =
      (first :: rest).countP (fun pid => !(pyStrip pid == "")) ∧
    (handler w env nowIso nowDisplay).2 = HandlerResult.response 200 "OK" := by
  have hh : handler w env nowIso nowDisplay =
      ((handlerLoop w nowIso nowDisplay w.store (first :: rest)).1,
       HandlerResult.response 200 "OK") := by
    unfold handler
    rw [hids]
    simp only [Option.getD_some, hsplit, hf, hslack, hok, if_false]
  rw [hh]
  exact ⟨handlerLoop_ok_validatorFetch_count w nowIso nowDisplay (first :: rest)
    w.store res hok, rfl⟩

/-- A configuration with two proposal ids. -/
def exEnvTwoIds : EnvConfig :=
  { proposalIds := some "1,2", slackWebhook := some "hook", errorWebhook := none }

/-- A world whose fetches succeed with empty results. -/
def exWorldEmpty : World :=
  { votes := fun _ => Except.ok [],
    validators := Except.ok [],
    store := [],
    post := fun _ => Except.ok (),
    errorPost := fun _ => Except.ok () }

/-- Counterexample to claim C5 as stated: in a successful run over two
configured proposals the handler fetches the bonded-validator resource
twice, not once. -/
theorem claim_c5_counterexample :
    ((handler exWorldEmpty exEnvTwoIds "t1" "d1").1.countP isValidatorFetch) = 2 ∧
    ¬ ((handler exWorldEmpty exEnvTwoIds "t1" "d1").1.countP isValidatorFetch) = 1 ∧
    (handler exWorldEmpty exEnvTwoIds "t1" "d1").2 = HandlerResult.response 200 "OK" :=
  ⟨by decide, by decide, by decide⟩

/-- Witness for the amended claim C5: the two-proposal run fetches the
validator set once per proposal. -/
theorem claim_c5_amended_validator_fetch_per_proposal_witness :
    ((handler exWorldEmpty exEnvTwoIds "t1" "d1").1.countP isValidatorFetch) =
      (["1", "2"].countP (fun pid => !(pyStrip pid == ""))) ∧
    (handler exWorldEmpty exEnvTwoIds "t1" "d1").2 = HandlerResult.response 200 "OK" :=
  claim_c5_amended_validator_fetch_per_proposal exWorldEmpty exEnvTwoIds "t1" "d1"
    "1,2" "1" ["2"] [("seen_votes_1", []), ("seen_votes_2", [])]
    rfl (by decide) (by decide) (by decide) (by decide)

/-! ## Claim C6 -/

/-- Claim C6: per-proposal state updates are atomic with respect to
errors — whenever `process_proposal` raises (vote fetch, validator
fetch, or any notification post), its effect trace contains no store
write, so the persisted seen mapping for the proposal is exactly what it
was before the call. -/
theorem claim_c6_no_state_write_on_error (w : World) (nowIso nowDisplay : String)
    (store : StoreMap) (proposal_id err : String)
    (h : (process_proposal w nowIso nowDisplay store proposal_id).2 = Except.error err) :
    ∀ key value, Effect.storeSet key value ∉
      (process_proposal w nowIso nowDisplay store proposal_id).1 :=
  process_proposal_error_no_storeSet w nowIso nowDisplay store proposal_id err h

/-- A world whose notification post always raises. -/
def exWorldPostFail : World :=
  { votes := fun _ => Except.ok [exVoteB],
    validators := Except.ok [],
    store := [],
    post := fun _ => Except.error "post failed",
    errorPost := fun _ => Except.ok () }

/-- Witness for claim C6: a run whose notification post raises performs
no store write. -/
theorem claim_c6_no_state_write_on_error_witness :
    (process_proposal exWorldPostFail "t1" "d1" [] "7").2 = Except.error "post failed" ∧
    Effect.storeSet "seen_votes_7" [("bob", { option := "UNKNOWN", timestamp := "t1" })] ∉
      (process_proposal exWorldPostFail "t1" "d1" [] "7").1 :=
  ⟨by decide,
   claim_c6_no_state_write_on_error exWorldPostFail "t1" "d1" [] "7" "post failed"
     (by decide) "seen_votes_7" [("bob", { option := "UNKNOWN", timestamp := "t1" })]⟩

/-! ## Claim C8 -/

/-- Recognizer for the error-sink post effect. -/
def isErrorPost (e : Effect) : Bool :=
  match e with
  | Effect.postError _ => true
  | _ => false

/-- Claim C8: when processing one of the configured proposals raises,
the run stops there — the handler's trace is exactly the trace of the
failed prefix, no later proposal is touched — the failure is reported
exactly once to the error sink when an error webhook is configured, the
error then propagates as a raised exception, and the outcome of the
error sink's own post never affects the run's result. -/
theorem claim_c8_abort_and_report (w : World) (env : EnvConfig)
    (nowIso nowDisplay idsStr first ew err : String) (rest ids2 : List String)
    (hids : env.proposalIds = some idsStr)
    (hsplit : pySplitComma idsStr = first :: (rest ++ ids2))
    (hf : first ≠ "")
    (hslack : env.slackWebhook.getD "" ≠ "")
    (herr : (handlerLoop w nowIso nowDisplay w.store (first :: rest)).2 = Except.error err)
    (hew : env.errorWebhook.getD "" = ew) (hewne : ew ≠ "") :
    handler w env nowIso nowDisplay =
      ((handlerLoop w nowIso nowDisplay w.store (first :: rest)).1 ++
        [Effect.postError (errorText err)],
       HandlerResult.raised err) ∧
    ((handler w env nowIso nowDisplay).1.countP isErrorPost) = 1 ∧
    (∀ f, handler { w with errorPost := f } env nowIso nowDisplay =
       handler w env nowIso nowDisplay) := by
  have hloopfull : handlerLoop w nowIso nowDisplay w.store (first :: (rest ++ ids2)) =
      handlerLoop w nowIso nowDisplay w.store (first :: rest) := by
    rw [← List.cons_append]
    exact handlerLoop_error_prefix w nowIso nowDisplay ids2 (first :: rest) w.store err herr
  have hh : handler w env nowIso nowDisplay =
      ((handlerLoop w nowIso nowDisplay w.store (first :: rest)).1 ++
        [Effect.postError (errorText err)],
       HandlerResult.raised err) := by
    unfold handler
    rw [hids]
    simp only [Option.getD_some, hsplit, hf, hslack, hloopfull, herr, hew, hewne,
      if_false, post_error_to_slack_eq]
  refine ⟨hh, ?_, ?_⟩
  · rw [hh]
    simp only [List.countP_append]
    have h0 : ((handlerLoop w nowIso nowDisplay w.store (first :: rest)).1.countP
        isErrorPost) = 0 := by
      rw [List.countP_eq_zero]
      intro e he
      cases e with
      | postError m =>
        exact absurd he
          (handlerLoop_no_postError w nowIso nowDisplay (first :: rest) w.store m)
      | fetchVotes p => simp [isErrorPost]
      | fetchValidators => simp [isErrorPost]
      | storeGet k => simp [isErrorPost]
      | storeSet k v => simp [isErrorPost]
      | postSlack m => simp [isErrorPost]
    rw [h0]
    simp [List.countP_cons, isErrorPost]
  · intro f
    unfold handler
    simp only [handlerLoop_errorPost_irrelevant, post_error_to_slack_eq]

/-- A configuration with two proposal ids and an error webhook. -/
def exEnvTwoIdsErr : EnvConfig :=
  { proposalIds := some "1,2", slackWebhook := some "hook", errorWebhook := some "ehook" }

/-- A world whose vote fetch always raises. -/
def exWorldVotesFail : World :=
  { votes := fun _ => Except.error "boom",
    validators := Except.ok [],
    store := [],
    post := fun _ => Except.ok (),
    errorPost := fun _ => Except.ok () }

/-- Witness for claim C8: a run failing on the first of two proposals
stops there, reports once to the error sink and re-raises. -/
theorem claim_c8_abort_and_report_witness :
    (handler exWorldVotesFail exEnvTwoIdsErr "t1" "d1" =
      ((handlerLoop exWorldVotesFail "t1" "d1" exWorldVotesFail.store ["1"]).1 ++
        [Effect.postError (errorText "boom")],
       HandlerResult.raised "boom")) ∧
    ((handler exWorldVotesFail exEnvTwoIdsErr "t1" "d1").1.countP isErrorPost) = 1 ∧
    (∀ f, handler { exWorldVotesFail with errorPost := f } exEnvTwoIdsErr "t1" "d1" =
       handler exWorldVotesFail exEnvTwoIdsErr "t1" "d1") := by
  have h := claim_c8_abort_and_report exWorldVotesFail exEnvTwoIdsErr "t1" "d1"
    "1,2" "1" "ehook" "boom" [] ["2"]
    rfl (by decide) (by decide) (by decide) (by decide) rfl (by decide)
  exact h

/-! ## Claim C7 -/

/-- The total of all parsed integer token amounts over a page sequence,
as accumulated by `total_power` in `fetch_validators`. -/
def totalTokens (pages : List ValidatorsPage) : Int :=
  ((allRaws pages).map (fun v => v.tokens)).sum

/-- Claim C7: over well-formed pagination (truthy keys before the last
page, none on it) and distinct operator addresses, when the total of all
parsed token amounts is positive every validator's `voting_power_pct`
equals its tokens divided by the total times 100 and the percentages sum
to exactly 100; when the total is zero every `voting_power_pct` is 0 and
the guarded division never divides by zero. -/
theorem claim_c7_voting_power (init : List ValidatorsPage) (lastPage : ValidatorsPage)
    (hpag1 : ∀ p ∈ init, truthy p.next_key = true)
    (hpag2 : truthy lastPage.next_key = false)
    (hnodup : ((allRaws (init ++ [lastPage])).map (fun v => v.operator_address)).Nodup) :
    (0 < totalTokens (init ++ [lastPage]) →
      (∀ kv ∈ fetch_validators (init ++ [lastPage]),
        kv.2.voting_power_pct =
          (kv.2.tokens : Rat) / ((totalTokens (init ++ [lastPage])) : Rat) * 100) ∧
      ((fetch_validators (init ++ [lastPage])).map
        (fun kv => kv.2.voting_power_pct)).sum = 100) ∧
    (totalTokens (init ++ [lastPage]) = 0 →
      ∀ kv ∈ fetch_validators (init ++ [lastPage]), kv.2.voting_power_pct = 0) := by
  have hloop := fetch_validators_loop_spec init lastPage none ([], 0) hpag1 hpag2
  have hnodup2 : ((([] : List (String × ValidatorInfo)).map Prod.fst) ++
      (allRaws (init ++ [lastPage])).map (fun v => v.operator_address)).Nodup := by
    simpa using hnodup
  have hentries := foldl_validatorStep_entries (allRaws (init ++ [lastPage])) ([], 0) hnodup2
  have htotal := foldl_validatorStep_total (allRaws (init ++ [lastPage])) ([], 0)
  have hres : fetch_validators (init ++ [lastPage]) =
      (allRaws (init ++ [lastPage])).map (fun v =>
        (v.operator_address,
         { moniker := v.moniker, tokens := v.tokens, operator_address := v.operator_address,
           voting_power_pct :=
             if 0 < totalTokens (init ++ [lastPage])
             then (v.tokens : Rat) / ((totalTokens (init ++ [lastPage])) : Rat) * 100
             else 0 })) := by
    unfold fetch_validators
    rw [hloop]
    simp only [hentries, htotal, List.nil_append, zero_add, List.map_map]
    rfl
  constructor
  · intro hT
    constructor
    · intro kv hkv
      rw [hres] at hkv
      obtain ⟨v, hv, heq⟩ := List.mem_map.mp hkv
      rw [← heq]
      simp [hT]
    · rw [hres, List.map_map]
      have hpt : ∀ v ∈ allRaws (init ++ [lastPage]),
          ((fun kv : String × ValidatorInfo => kv.2.voting_power_pct) ∘ (fun v =>
            (v.operator_address,
             { moniker := v.moniker, tokens := v.tokens,
               operator_address := v.operator_address,
               voting_power_pct :=
                 if 0 < totalTokens (init ++ [lastPage])
                 then (v.tokens : Rat) / ((totalTokens (init ++ [lastPage])) : Rat) * 100
                 else 0 }))) v =
          (v.tokens : Rat) / ((totalTokens (init ++ [lastPage])) : Rat) * 100 := by
        intro v hv
        simp [hT]
      rw [List.map_congr_left hpt]
      have h2 : (allRaws (init ++ [lastPage])).map
          (fun v => (v.tokens : Rat) / ((totalTokens (init ++ [lastPage])) : Rat) * 100) =
          ((allRaws (init ++ [lastPage])).map (fun v => v.tokens)).map
            (fun t : Int =>
              (t : Rat) / ((totalTokens (init ++ [lastPage])) : Rat) * 100) := by
        rw [List.map_map]
        rfl
      rw [h2, sum_map_div_mul, ← sum_map_intCast]
      have hne : ((totalTokens (init ++ [lastPage]) : Int) : Rat) ≠ 0 :=
        ne_of_gt (Int.cast_pos.mpr hT)
      rw [show (((allRaws (init ++ [lastPage])).map (fun v => v.tokens)).sum : Int) =
        totalTokens (init ++ [lastPage]) from rfl]
      rw [div_self hne, one_mul]
  · intro hT0 kv hkv
    rw [hres] at hkv
    obtain ⟨v, hv, heq⟩ := List.mem_map.mp hkv
    rw [← heq]
    simp [hT0]

/-- One page of two bonded validators with tokens 1 and 3. -/
def exVPage : ValidatorsPage :=
  { validators := some
      [{ operator_address := "valoperA", tokens := 1, moniker := "A" },
       { operator_address := "valoperB", tokens := 3, moniker := "B" }],
    next_key := none }

/-- Witness for claim C7: with tokens 1 and 3 the percentages are 25 and
75 and sum to exactly 100. -/
theorem claim_c7_voting_power_witness :
    (0 < totalTokens ([] ++ [exVPage]) →
      (∀ kv ∈ fetch_validators ([] ++ [exVPage]),
        kv.2.voting_power_pct =
          (kv.2.tokens : Rat) / ((totalTokens ([] ++ [exVPage])) : Rat) * 100) ∧
      ((fetch_validators ([] ++ [exVPage])).map
        (fun kv => kv.2.voting_power_pct)).sum = 100) ∧
    (totalTokens ([] ++ [exVPage]) = 0 →
      ∀ kv ∈ fetch_validators ([] ++ [exVPage]), kv.2.voting_power_pct = 0) :=
  claim_c7_voting_power [] exVPage (by decide) (by decide) (by decide)

end GovBot
